import Mathlib

/-!
Shallow embedding of the core of the twilio-retell-serverless repository:
the cadence decision step of `src/functions/retell_call_outcome_webhook.ts`,
the cadence rule table of `src/utils/cadence_rules.ts`, the contact state
store and due-query of `manage_contact_state` (the variant that sorts and
deduplicates), the scheduler loop of the cadence engine, and the hopper
claim step of the initial dialer.  Timestamps are naturals (milliseconds
since epoch); JavaScript `undefined` is `Option.none`.
-/

namespace TwilioRetell

/-! ## Data model -/

/-- Status values of a contact cadence record, from the
`ContactCadenceState.status` union type in `types/cadence_state.ts`. -/
inductive ContactStatus where
  | PENDING
  | ACTIVE
  | PAUSED
  | COMPLETED_SUCCESS
  | COMPLETED_EXHAUSTED
  | ERROR
deriving DecidableEq, Repr

/-- The status union allowed for `finalStatusOnExhaustion` in
`CadenceDispositionRule` of `cadence_rules.ts`: COMPLETED_EXHAUSTED,
PAUSED, COMPLETED_SUCCESS or ERROR.  Note ACTIVE and PENDING are excluded
by the TypeScript type. -/
inductive FinalStatus where
  | COMPLETED_EXHAUSTED
  | PAUSED
  | COMPLETED_SUCCESS
  | ERROR
deriving DecidableEq, Repr

/-- Injection of the exhaustion statuses into the full status type. -/
def FinalStatus.toStatus : FinalStatus → ContactStatus
  | .COMPLETED_EXHAUSTED => .COMPLETED_EXHAUSTED
  | .PAUSED => .PAUSED
  | .COMPLETED_SUCCESS => .COMPLETED_SUCCESS
  | .ERROR => .ERROR

/-- A full contact cadence record as produced by the webhook decision step
(`ContactCadenceState` in `types/cadence_state.ts`).  The opaque
`metadata` bag is modelled by its two fields the webhook writes:
`retellCallId` and `lastWebhookTimestamp`. -/
structure ContactCadenceState where
  phoneNumber : String
  leadId : Option String := none
  lastCallSid : Option String := none
  lastCallDisposition : Option String := none
  lastAttemptTimestamp : Option Nat := none
  nextCallTimestamp : Option Nat := none
  attemptCount : Nat
  status : ContactStatus
  currentCallSid : Option String := none
  hopperPriority : Option Nat := none
  metaRetellCallId : Option String := none
  metaLastWebhookTimestamp : Option Nat := none
deriving DecidableEq, Repr

/-- The inbound Retell outcome payload fields the decision step reads
(`RetellCallOutcomePayload` in `retell_call_outcome_webhook.ts`). -/
structure OutcomeEvent where
  callId : String
  twilioCallSid : String
  phoneNumber : String
  disposition : String
  callEndedTimestamp : Nat
deriving DecidableEq, Repr

/-! ## Rule table (`src/utils/cadence_rules.ts`) -/

/-- Interface `CadenceRuleDelay` of `cadence_rules.ts`. -/
structure CadenceRuleDelay where
  days : Nat
  hours : Nat
  minutes : Nat
  seconds : Nat
deriving DecidableEq, Repr

/-- Interface `CadenceRuleSegment` of `cadence_rules.ts`. -/
structure CadenceRuleSegment where
  callCountMin : Nat
  callCountMax : Nat
  delay : CadenceRuleDelay
  hopperPriorityOverride : Option Nat := none
deriving DecidableEq, Repr

/-- Interface `CadenceDispositionRule` of `cadence_rules.ts`.  The TypeScript
interface has no `maxAttempts` field; the scheduler in the cadence engine
nevertheless reads `dispositionRule.maxAttempts`, which in JavaScript
evaluates to `undefined`.  We model that absent field as an `Option`
that is `none` in every rule the configuration constructs. -/
structure CadenceDispositionRule where
  segments : List CadenceRuleSegment
  defaultHopperPriority : Option Nat := none
  finalStatusOnExhaustion : FinalStatus
  maxAttempts : Option Nat := none
deriving DecidableEq, Repr

/-- Helper `minutesDelay` of `cadence_rules.ts`. -/
def minutesDelay (m : Nat) : CadenceRuleDelay :=
  { days := 0, hours := 0, minutes := m, seconds := 0 }

/-- The `NEW_LEAD` rule of `getCadenceRules`. -/
def NEW_LEAD_rule : CadenceDispositionRule where
  segments := [{ callCountMin := 0, callCountMax := 0
               , delay := { days := 0, hours := 0, minutes := 0, seconds := 0 } }]
  defaultHopperPriority := some 100
  finalStatusOnExhaustion := .COMPLETED_EXHAUSTED

/-- The `ANSWERING_MACHINE` rule of `getCadenceRules`. -/
def ANSWERING_MACHINE_rule : CadenceDispositionRule where
  defaultHopperPriority := some 50
  segments :=
    [ { callCountMin := 1, callCountMax := 1, delay := { days := 0, hours := 0, minutes := 22, seconds := 4 } }
    , { callCountMin := 2, callCountMax := 2, delay := { days := 0, hours := 0, minutes := 11, seconds := 52 } }
    , { callCountMin := 3, callCountMax := 3, delay := { days := 0, hours := 0, minutes := 22, seconds := 4 } }
    , { callCountMin := 4, callCountMax := 4, delay := { days := 0, hours := 0, minutes := 11, seconds := 52 } }
    , { callCountMin := 5, callCountMax := 5, delay := { days := 0, hours := 1, minutes := 30, seconds := 32 } }
    , { callCountMin := 6, callCountMax := 6, delay := { days := 0, hours := 0, minutes := 22, seconds := 4 } }
    , { callCountMin := 7, callCountMax := 7, delay := { days := 0, hours := 1, minutes := 30, seconds := 32 } }
    , { callCountMin := 8, callCountMax := 8, delay := { days := 0, hours := 0, minutes := 11, seconds := 52 } }
    , { callCountMin := 9, callCountMax := 9, delay := { days := 0, hours := 1, minutes := 30, seconds := 32 } }
    , { callCountMin := 10, callCountMax := 10, delay := { days := 0, hours := 0, minutes := 22, seconds := 4 } } ]
  finalStatusOnExhaustion := .PAUSED

/-- The `NO_ANSWER` rule of `getCadenceRules`. -/
def NO_ANSWER_rule : CadenceDispositionRule where
  segments :=
    [ { callCountMin := 1, callCountMax := 1, delay := minutesDelay 20 }
    , { callCountMin := 2, callCountMax := 2, delay := minutesDelay 120 }
    , { callCountMin := 3, callCountMax := 3, delay := { days := 1, hours := 0, minutes := 0, seconds := 0 } } ]
  finalStatusOnExhaustion := .COMPLETED_EXHAUSTED

/-- The `VOICEMAIL_DETECTED` rule of `getCadenceRules`. -/
def VOICEMAIL_DETECTED_rule : CadenceDispositionRule where
  segments :=
    [ { callCountMin := 1, callCountMax := 1, delay := { days := 2, hours := 0, minutes := 0, seconds := 0 } }
    , { callCountMin := 2, callCountMax := 2, delay := { days := 5, hours := 0, minutes := 0, seconds := 0 } } ]
  defaultHopperPriority := some 40
  finalStatusOnExhaustion := .PAUSED

/-- The `BUSY` rule of `getCadenceRules`. -/
def BUSY_rule : CadenceDispositionRule where
  segments :=
    [ { callCountMin := 1, callCountMax := 1, delay := minutesDelay 15 }
    , { callCountMin := 2, callCountMax := 2, delay := minutesDelay 60 } ]
  finalStatusOnExhaustion := .COMPLETED_EXHAUSTED

/-- The `ERROR_CALL_FAILED` rule of `getCadenceRules`. -/
def ERROR_CALL_FAILED_rule : CadenceDispositionRule where
  segments :=
    [ { callCountMin := 1, callCountMax := 2, delay := minutesDelay 5 }
    , { callCountMin := 3, callCountMax := 3, delay := minutesDelay 30 } ]
  finalStatusOnExhaustion := .ERROR

/-- The `ERROR_INITIATION_FAILED` rule of `getCadenceRules`. -/
def ERROR_INITIATION_FAILED_rule : CadenceDispositionRule where
  segments := [ { callCountMin := 1, callCountMax := 3, delay := minutesDelay 10 } ]
  finalStatusOnExhaustion := .ERROR

/-- The `APPOINTMENT_SCHEDULED_AI` rule of `getCadenceRules`. -/
def APPOINTMENT_SCHEDULED_AI_rule : CadenceDispositionRule where
  segments := [ { callCountMin := 1, callCountMax := 99, delay := minutesDelay 0 } ]
  finalStatusOnExhaustion := .COMPLETED_SUCCESS

/-- The `CALL_COMPLETED_HUMAN_HANDOFF` rule of `getCadenceRules`. -/
def CALL_COMPLETED_HUMAN_HANDOFF_rule : CadenceDispositionRule where
  segments := [ { callCountMin := 1, callCountMax := 99, delay := minutesDelay 0 } ]
  finalStatusOnExhaustion := .PAUSED

/-- The `DEFAULT` rule of `getCadenceRules`. -/
def DEFAULT_rule : CadenceDispositionRule where
  segments := [ { callCountMin := 1, callCountMax := 1, delay := minutesDelay 5 } ]
  finalStatusOnExhaustion := .COMPLETED_EXHAUSTED

/-- Keyed lookup of the OWN properties of the object literal returned by
`getCadenceRules`: `some` for the ten defined dispositions, `none`
otherwise.  A JavaScript bracket lookup additionally resolves members
inherited from `Object.prototype` before the falsy fallback can apply;
that full lookup is `jsRuleLookup` below, and the throwing path it opens
is modelled by `decideCadenceJs`. -/
def getCadenceRulesMap (key : String) : Option CadenceDispositionRule :=
  if key = "NEW_LEAD" then some NEW_LEAD_rule
  else if key = "ANSWERING_MACHINE" then some ANSWERING_MACHINE_rule
  else if key = "NO_ANSWER" then some NO_ANSWER_rule
  else if key = "VOICEMAIL_DETECTED" then some VOICEMAIL_DETECTED_rule
  else if key = "BUSY" then some BUSY_rule
  else if key = "ERROR_CALL_FAILED" then some ERROR_CALL_FAILED_rule
  else if key = "ERROR_INITIATION_FAILED" then some ERROR_INITIATION_FAILED_rule
  else if key = "APPOINTMENT_SCHEDULED_AI" then some APPOINTMENT_SCHEDULED_AI_rule
  else if key = "CALL_COMPLETED_HUMAN_HANDOFF" then some CALL_COMPLETED_HUMAN_HANDOFF_rule
  else if key = "DEFAULT" then some DEFAULT_rule
  else none

/-- The fallback lookup `rules[dispositionRuleKey] || rules.DEFAULT` used
by both the webhook and the cadence engine. -/
def ruleFor (key : String) : CadenceDispositionRule :=
  (getCadenceRulesMap key).getD DEFAULT_rule

/-! ## Webhook decision step (`retell_call_outcome_webhook.ts`) -/

/-- Milliseconds represented by a `CadenceRuleDelay`, as accumulated by the
successive `setDate`, `setHours`, `setMinutes`, `setSeconds` calls on the
freshly constructed date. -/
def delayMs (d : CadenceRuleDelay) : Nat :=
  d.days * 86400000 + d.hours * 3600000 + d.minutes * 60000 + d.seconds * 1000

/-- The default value of the `RETELL_HANDOFF_DISPOSITIONS` environment
variable, split on commas. -/
def defaultHandoffDispositions : List String :=
  ["CALL_COMPLETED_HUMAN_HANDOFF", "CALL_TRANSFERRED"]

/-- The rule key `contactState.lastCallDisposition || DEFAULT` computed
after the webhook copied `event.disposition` into the state: the empty
string is falsy in JavaScript and falls back to DEFAULT. -/
def dispositionRuleKey (event : OutcomeEvent) : String :=
  if event.disposition = "" then "DEFAULT" else event.disposition

/-- Attempt count after the webhook increments it: prior count plus one
when a state was fetched, one for a fresh contact. -/
def bumpedAttemptCount : Option ContactCadenceState → Nat
  | some st => st.attemptCount + 1
  | none => 1

/-- The segment predicate of the `segments.find` call in the webhook. -/
def segMatches (n : Nat) (seg : CadenceRuleSegment) : Bool :=
  decide (seg.callCountMin ≤ n) && decide (n ≤ seg.callCountMax)

/-- Lookup `currentRule.segments.find(...)` at the given attempt count. -/
def matchedSegment (rule : CadenceDispositionRule) (n : Nat) : Option CadenceRuleSegment :=
  rule.segments.find? (segMatches n)

/-- The condition guarding the terminal-success branch of the webhook:
key APPOINTMENT_SCHEDULED_AI or a rule whose exhaustion status is
COMPLETED_SUCCESS. -/
def isTerminalSuccess (key : String) (rule : CadenceDispositionRule) : Bool :=
  key == "APPOINTMENT_SCHEDULED_AI" || rule.finalStatusOnExhaustion == FinalStatus.COMPLETED_SUCCESS

/-- The cadence decision step of `retell_call_outcome_webhook.ts`
(cadence-origin branch, the state mutation between fetching the prior
state and persisting the result).  `now` is the wall-clock instant the
webhook runs at, read through `new Date()`.  This function models the
step on dispositions whose rule key resolves an own rule or the DEFAULT
fallback; `decideCadenceJs` below extends it with the error path opened
by keys that collide with `Object.prototype` members. -/
def decideCadence (handoffDispositions : List String)
    (fetchedContactState : Option ContactCadenceState)
    (event : OutcomeEvent) (now : Nat) : ContactCadenceState :=
  let n := bumpedAttemptCount fetchedContactState
  let base : ContactCadenceState :=
    match fetchedContactState with
    | some st => { st with attemptCount := n }
    | none => { phoneNumber := event.phoneNumber, attemptCount := n
              , status := ContactStatus.PENDING }
  let st := { base with
    lastCallSid := some event.twilioCallSid
    lastCallDisposition := some event.disposition
    lastAttemptTimestamp := some event.callEndedTimestamp
    currentCallSid := none
    metaRetellCallId := some event.callId
    metaLastWebhookTimestamp := some now }
  let key := dispositionRuleKey event
  let currentRule := ruleFor key
  let st := { st with
    hopperPriority :=
      match st.hopperPriority with
      | some p => some p
      | none => currentRule.defaultHopperPriority }
  if isTerminalSuccess key currentRule then
    { st with status := ContactStatus.COMPLETED_SUCCESS
            , nextCallTimestamp := none
            , hopperPriority := none }
  else if handoffDispositions.contains key then
    { st with status := ContactStatus.PAUSED
            , nextCallTimestamp := none }
  else
    match matchedSegment currentRule n with
    | some seg =>
      { st with status := ContactStatus.ACTIVE
              , nextCallTimestamp := some (now + delayMs seg.delay)
              , hopperPriority :=
                  match seg.hopperPriorityOverride with
                  | some p => some p
                  | none => st.hopperPriority }
    | none =>
      { st with status := currentRule.finalStatusOnExhaustion.toStatus
              , nextCallTimestamp := none
              , hopperPriority := none }

/-! ## Contact state store (`manage_contact_state`) -/

/-- The data of a Sync document backing one contact.  Because callers pass
`Partial<ContactCadenceState>` objects (the cadence engine writes only
`phoneNumber` and `currentCallSid` before placing a call), every field
other than the key may be absent. -/
structure StoredContactDoc where
  phoneNumber : String
  leadId : Option String := none
  lastCallSid : Option String := none
  lastCallDisposition : Option String := none
  lastAttemptTimestamp : Option Nat := none
  nextCallTimestamp : Option Nat := none
  attemptCount : Option Nat := none
  status : Option ContactStatus := none
  currentCallSid : Option String := none
  hopperPriority : Option Nat := none
deriving DecidableEq, Repr

/-- The document store of the Sync service: one document per phone
number. -/
def ContactStore : Type := String → Option StoredContactDoc

/-- Function `addOrUpdateContact`: the Sync document update with data set to the
passed state replaces the entire document data with that state object. -/
def addOrUpdateContact (store : ContactStore) (state : StoredContactDoc) : ContactStore :=
  fun key => if key = state.phoneNumber then some state else store key

/-- The partial state object `stateUpdateForCallAttempt` the cadence
engine persists before placing a call: only `phoneNumber` and the fresh
`currentCallSid` are present. -/
def preCallStateUpdate (phoneNumber : String) (newCurrentCallSid : String) : StoredContactDoc :=
  { phoneNumber := phoneNumber, currentCallSid := some newCurrentCallSid }

/-- One item of the `active_cadence_contacts` Sync list; its data may
lack the `phoneNumber` field. -/
structure SyncListItem where
  phoneNumber : Option String
deriving DecidableEq, Repr

/-- The membership test `[ACTIVE, PENDING].includes(contactState.status)`;
an absent status is in neither list. -/
def isActiveOrPending (d : StoredContactDoc) : Bool :=
  d.status == some ContactStatus.ACTIVE || d.status == some ContactStatus.PENDING

/-- The first pass of `queryContactsDueForCall`: walk the Sync list,
skip items with no phone number and phone numbers already processed,
fetch each backing document, keep those in status ACTIVE or PENDING and
skip dangling list entries with no backing document. -/
def collectActiveContacts (store : ContactStore) :
    List SyncListItem → List String → List StoredContactDoc
  | [], _ => []
  | item :: rest, seen =>
    match item.phoneNumber with
    | none => collectActiveContacts store rest seen
    | some ph =>
      if ph ∈ seen then collectActiveContacts store rest seen
      else
        match store ph with
        | some doc =>
          if isActiveOrPending doc then
            doc :: collectActiveContacts store rest (ph :: seen)
          else
            collectActiveContacts store rest (ph :: seen)
        | none => collectActiveContacts store rest (ph :: seen)

/-- Constant `Number.MAX_SAFE_INTEGER`, the sort key used for absent priorities and
absent next-call timestamps. -/
def maxSafeInteger : Nat := 9007199254740991

/-- Primary sort key: `hopperPriority ?? Number.MAX_SAFE_INTEGER`. -/
def priorityKey (d : StoredContactDoc) : Nat :=
  d.hopperPriority.getD maxSafeInteger

/-- Secondary sort key: the epoch value of `nextCallTimestamp`, or
`Number.MAX_SAFE_INTEGER` when absent. -/
def timeKey (d : StoredContactDoc) : Nat :=
  d.nextCallTimestamp.getD maxSafeInteger

/-- The comparator passed to `allActiveContacts.sort`: ascending
priority, ties broken by ascending next-call time. -/
def queryLe (a b : StoredContactDoc) : Bool :=
  decide (priorityKey a < priorityKey b) ||
    (decide (priorityKey a = priorityKey b) && decide (timeKey a ≤ timeKey b))

/-- The due filter applied after sorting: records lacking a
`nextCallTimestamp` are dropped, the rest must be due at `asOf`. -/
def dueFilter (asOf : Nat) (d : StoredContactDoc) : Bool :=
  match d.nextCallTimestamp with
  | some t => decide (t ≤ asOf)
  | none => false

/-- Function `queryContactsDueForCall` of `manage_contact_state` (the variant with
prioritized ordering): deduplicate and fetch the active-index members,
sort by priority then next-call time, and filter to the records due at
`asOf`. -/
def queryContactsDueForCall (items : List SyncListItem) (store : ContactStore)
    (asOf : Nat) : List StoredContactDoc :=
  ((collectActiveContacts store items []).mergeSort queryLe).filter (dueFilter asOf)

/-! ## Scheduler loop (cadence engine) -/

/-- JavaScript falsiness of an optional string: absent or empty. -/
def falsyOptStr : Option String → Bool
  | none => true
  | some s => s == ""

/-- The rule key the cadence engine derives for a due contact:
NEW_LEAD when no attempt was made and no disposition recorded, otherwise
the last disposition with DEFAULT as the falsy fallback. -/
def schedulerRuleKey (c : StoredContactDoc) : String :=
  if c.attemptCount == some 0 && falsyOptStr c.lastCallDisposition then "NEW_LEAD"
  else
    match c.lastCallDisposition with
    | some s => if s = "" then "DEFAULT" else s
    | none => "DEFAULT"

/-- JavaScript `a >= b` on possibly-undefined numbers: any comparison
against `undefined` is false (it converts to NaN). -/
def jsGeOpt (a b : Option Nat) : Bool :=
  match a, b with
  | some x, some y => decide (y ≤ x)
  | _, _ => false

/-- The max-attempts exhaustion test of the cadence engine:
`contact.attemptCount >= dispositionRule.maxAttempts` against the rule
resolved for the contact. -/
def schedulerExhausts (c : StoredContactDoc) : Bool :=
  jsGeOpt c.attemptCount (ruleFor (schedulerRuleKey c)).maxAttempts

/-! ## Work queue claim step (initial dialer) -/

/-- One row of the `hopper` table, with the columns the claim query
touches.  `priority` is nullable. -/
structure HopperEntry where
  id : Nat
  leadId : Nat
  hopperEntryTimestamp : Nat
  priority : Option Int
  status : String
deriving DecidableEq, Repr

/-- Priority comparison with `NULLS LAST`: a null priority sorts after
every non-null one. -/
def priorityNullsLastLE : Option Int → Option Int → Bool
  | some p, some q => decide (p ≤ q)
  | some _, none => true
  | none, some _ => false
  | none, none => true

/-- The `ORDER BY hopper_entry_timestamp ASC, priority ASC NULLS LAST`
order of the claim subselect, as a total preorder. -/
def claimKeyLE (a b : HopperEntry) : Bool :=
  decide (a.hopperEntryTimestamp < b.hopperEntryTimestamp) ||
    (decide (a.hopperEntryTimestamp = b.hopperEntryTimestamp) &&
      priorityNullsLastLE a.priority b.priority)

/-- The `status = PENDING_INITIAL_CALL` predicate of the claim
subselect. -/
def isPendingEntry (e : HopperEntry) : Bool :=
  e.status == "PENDING_INITIAL_CALL"

/-- The candidate rows of the claim subselect. -/
def pendingEntries (h : List HopperEntry) : List HopperEntry :=
  h.filter isPendingEntry

/-- Keep the better of two candidates under the claim order (the earlier
row wins ties, matching an arbitrary but fixed LIMIT 1 tie-break). -/
def betterEntry (a b : HopperEntry) : HopperEntry :=
  if claimKeyLE a b then a else b

/-- The row the `SELECT ... ORDER BY ... LIMIT 1 FOR UPDATE SKIP LOCKED`
subselect returns: a minimal pending row under the claim order, `none`
when no row is pending. -/
def selectNext (h : List HopperEntry) : Option HopperEntry :=
  match pendingEntries h with
  | [] => none
  | e :: es => some (es.foldl betterEntry e)

/-- The `UPDATE hopper SET status = PROCESSING_INITIAL_CALL WHERE id = ...`
effect of the claim statement. -/
def markClaimed (h : List HopperEntry) (e : HopperEntry) : List HopperEntry :=
  h.map fun x =>
    if x.id = e.id then { x with status := "PROCESSING_INITIAL_CALL" } else x

/-- One atomic execution of the fetch-and-lock statement: returns the
claimed row (still carrying its pre-claim column values, as the claimant
sees it) and the table afterwards. -/
def claimNext (h : List HopperEntry) : Option HopperEntry × List HopperEntry :=
  match selectNext h with
  | none => (none, h)
  | some e => (some e, markClaimed h e)

/-- N invocations of the claim step.  `FOR UPDATE SKIP LOCKED` makes each
claim an indivisible select-and-mark, so any concurrent schedule of N
claimants is equivalent to N sequential executions. -/
def runClaims : Nat → List HopperEntry → List HopperEntry × List HopperEntry
  | 0, h => ([], h)
  | n + 1, h =>
    match claimNext h with
    | (none, h1) => ([], h1)
    | (some e, h1) =>
      let r := runClaims n h1
      (e :: r.1, r.2)

/-! ## Auxiliary predicates and concrete sample inputs used by theorems -/

/-- Agreement of two decision results on every field that is not derived
from the wall clock (`nextCallTimestamp` and the `lastWebhookTimestamp`
metadata stamp are the clock-derived fields; `nextCallTimestamp` still
agrees whenever the result is not ACTIVE). -/
def agreesExceptClockFields (r1 r2 : ContactCadenceState) : Prop :=
  r1.phoneNumber = r2.phoneNumber ∧
  r1.leadId = r2.leadId ∧
  r1.lastCallSid = r2.lastCallSid ∧
  r1.lastCallDisposition = r2.lastCallDisposition ∧
  r1.lastAttemptTimestamp = r2.lastAttemptTimestamp ∧
  r1.attemptCount = r2.attemptCount ∧
  r1.status = r2.status ∧
  r1.currentCallSid = r2.currentCallSid ∧
  r1.hopperPriority = r2.hopperPriority ∧
  r1.metaRetellCallId = r2.metaRetellCallId ∧
  (r1.status ≠ ContactStatus.ACTIVE → r1.nextCallTimestamp = r2.nextCallTimestamp)

/-- A concrete NO_ANSWER outcome event ending at epoch 0. -/
def sampleNoAnswerEvent : OutcomeEvent :=
  { callId := "retell_1", twilioCallSid := "CA100", phoneNumber := "+15550000001"
  , disposition := "NO_ANSWER", callEndedTimestamp := 0 }

/-- A concrete prior contact state with three attempts already made. -/
def samplePriorState : ContactCadenceState :=
  { phoneNumber := "+15550000001", attemptCount := 3
  , status := ContactStatus.ACTIVE, lastCallDisposition := some "NO_ANSWER"
  , nextCallTimestamp := some 500, hopperPriority := none }

/-- A concrete stored document holding cadence progress, as it exists
before the scheduler's pre-call token write. -/
def samplePriorDoc : StoredContactDoc :=
  { phoneNumber := "+15550000001", attemptCount := some 3
  , status := some ContactStatus.ACTIVE, lastCallDisposition := some "NO_ANSWER"
  , nextCallTimestamp := some 500, hopperPriority := some 7 }

/-- A concrete one-document store backing the query witness. -/
def sampleStore : ContactStore :=
  fun key => if key = "+15550000001" then some samplePriorDoc else none

/-- A concrete active-index list with one well-formed item. -/
def sampleItems : List SyncListItem :=
  [{ phoneNumber := some "+15550000001" }]

/-- A concrete hopper table: two pending rows (one with a null priority)
and one already-processed row. -/
def sampleHopper : List HopperEntry :=
  [ { id := 1, leadId := 11, hopperEntryTimestamp := 100, priority := none
    , status := "PENDING_INITIAL_CALL" }
  , { id := 2, leadId := 12, hopperEntryTimestamp := 100, priority := some 5
    , status := "PENDING_INITIAL_CALL" }
  , { id := 3, leadId := 13, hopperEntryTimestamp := 50, priority := some 1
    , status := "INITIAL_CALL_COMPLETED" } ]

/-! ## JavaScript prototype-chain rule lookup and the throwing path -/

/-- Own property names of `Object.prototype`.  A bracket lookup on an
object literal resolves these keys to inherited members — truthy values
that are not rules — so the falsy-fallback `rules[key] || rules.DEFAULT`
does not reach DEFAULT for them. -/
def objectPrototypeKeys : List String :=
  [ "constructor", "hasOwnProperty", "isPrototypeOf", "propertyIsEnumerable"
  , "toLocaleString", "toString", "valueOf"
  , "__proto__", "__defineGetter__", "__defineSetter__"
  , "__lookupGetter__", "__lookupSetter__" ]

/-- Result of the JavaScript lookup `rules[key] || rules.DEFAULT` on the
rule-table object literal: either a rule (an own rule, or the DEFAULT
fallback when the lookup was falsy), or a truthy member inherited from
`Object.prototype`, which carries no rule fields. -/
inductive JsRuleLookup where
  | ownRule (rule : CadenceDispositionRule)
  | protoMember
deriving DecidableEq, Repr

/-- The JavaScript lookup `rules[key] || rules.DEFAULT`: own keys give
their rule, keys colliding with `Object.prototype` members give the
inherited truthy member, all other keys fall back to DEFAULT. -/
def jsRuleLookup (key : String) : JsRuleLookup :=
  match getCadenceRulesMap key with
  | some rule => JsRuleLookup.ownRule rule
  | none =>
    if key ∈ objectPrototypeKeys then JsRuleLookup.protoMember
    else JsRuleLookup.ownRule DEFAULT_rule

/-- The cadence decision step with the JavaScript object-lookup
semantics made explicit.  When the disposition key resolves a rule the
behaviour is that of `decideCadence`.  When it resolves an inherited
`Object.prototype` member, `currentRule.defaultHopperPriority` and
`currentRule.finalStatusOnExhaustion` read as undefined (so the
priority keeps its value and the terminal-success test is false), the
hand-off test still applies, and the remaining branch dereferences
`currentRule.segments`, which is undefined — the step throws a
TypeError, modelled as `Except.error`. -/
def decideCadenceJs (handoffDispositions : List String)
    (fetchedContactState : Option ContactCadenceState)
    (event : OutcomeEvent) (now : Nat) : Except String ContactCadenceState :=
  let n := bumpedAttemptCount fetchedContactState
  let base : ContactCadenceState :=
    match fetchedContactState with
    | some st => { st with attemptCount := n }
    | none => { phoneNumber := event.phoneNumber, attemptCount := n
              , status := ContactStatus.PENDING }
  let st := { base with
    lastCallSid := some event.twilioCallSid
    lastCallDisposition := some event.disposition
    lastAttemptTimestamp := some event.callEndedTimestamp
    currentCallSid := none
    metaRetellCallId := some event.callId
    metaLastWebhookTimestamp := some now }
  let key := dispositionRuleKey event
  match jsRuleLookup key with
  | JsRuleLookup.ownRule currentRule =>
    let st := { st with
      hopperPriority :=
        match st.hopperPriority with
        | some p => some p
        | none => currentRule.defaultHopperPriority }
    if isTerminalSuccess key currentRule then
      Except.ok { st with status := ContactStatus.COMPLETED_SUCCESS
                        , nextCallTimestamp := none
                        , hopperPriority := none }
    else if handoffDispositions.contains key then
      Except.ok { st with status := ContactStatus.PAUSED
                        , nextCallTimestamp := none }
    else
      match matchedSegment currentRule n with
      | some seg =>
        Except.ok { st with status := ContactStatus.ACTIVE
                          , nextCallTimestamp := some (now + delayMs seg.delay)
                          , hopperPriority :=
                              match seg.hopperPriorityOverride with
                              | some p => some p
                              | none => st.hopperPriority }
      | none =>
        Except.ok { st with status := currentRule.finalStatusOnExhaustion.toStatus
                          , nextCallTimestamp := none
                          , hopperPriority := none }
  | JsRuleLookup.protoMember =>
    if handoffDispositions.contains key then
      Except.ok { st with status := ContactStatus.PAUSED
                        , nextCallTimestamp := none }
    else
      Except.error "TypeError: currentRule.segments is undefined"

/-! ## Theorems -/

/-- No exhaustion status maps to ACTIVE. -/
theorem toStatus_ne_ACTIVE (fs : FinalStatus) : fs.toStatus ≠ ContactStatus.ACTIVE := by
  cases fs <;> simp [FinalStatus.toStatus]

/-- C9: every record produced by the cadence decision step satisfies the
invariant that status ACTIVE implies a non-null nextCallTimestamp: the
only branch assigning ACTIVE also assigns a concrete next-call instant,
and the exhaustion statuses exclude ACTIVE by type. -/
theorem decision_active_has_next_call (hd : List String)
    (fetched : Option ContactCadenceState) (ev : OutcomeEvent) (now : Nat) :
    (decideCadence hd fetched ev now).status = ContactStatus.ACTIVE →
      (decideCadence hd fetched ev now).nextCallTimestamp ≠ none := by
  unfold decideCadence
  dsimp only
  split
  · intro h; simp at h
  · split
    · intro h; simp at h
    · split
      · intro _; simp
      · intro h
        simp only at h
        exact absurd h (toStatus_ne_ACTIVE _)

/-- Witness for C9: a concrete bootstrap NO_ANSWER decision lands in
status ACTIVE and indeed carries a next-call timestamp. -/
theorem decision_active_has_next_call_witness :
    (decideCadence defaultHandoffDispositions none sampleNoAnswerEvent 0).status
        = ContactStatus.ACTIVE ∧
    (decideCadence defaultHandoffDispositions none sampleNoAnswerEvent 0).nextCallTimestamp
        ≠ none :=
  ⟨by decide, decision_active_has_next_call _ _ _ _ (by decide)⟩

/-- C7: for every prior contact state (hence every attemptCount) and
every clock instant, an outcome whose disposition lies in the configured
hand-off set (the default RETELL_HANDOFF_DISPOSITIONS value) is decided
into status PAUSED with nextCallTimestamp cleared. -/
theorem handoff_disposition_yields_paused
    (fetched : Option ContactCadenceState) (ev : OutcomeEvent) (now : Nat)
    (hmem : ev.disposition ∈ defaultHandoffDispositions) :
    (decideCadence defaultHandoffDispositions fetched ev now).status = ContactStatus.PAUSED ∧
    (decideCadence defaultHandoffDispositions fetched ev now).nextCallTimestamp = none := by
  obtain ⟨cid, sid, ph, disp, ts⟩ := ev
  simp only [defaultHandoffDispositions, List.mem_cons, List.not_mem_nil, or_false] at hmem
  rcases hmem with h | h <;> subst h <;> exact ⟨rfl, rfl⟩

/-- Witness for C7 at a concrete transferred call against a contact with
three prior attempts. -/
theorem handoff_disposition_yields_paused_witness :
    ({ callId := "retell_2", twilioCallSid := "CA200", phoneNumber := "+15550000001"
     , disposition := "CALL_TRANSFERRED", callEndedTimestamp := 700 } : OutcomeEvent).disposition
        ∈ defaultHandoffDispositions ∧
    ((decideCadence defaultHandoffDispositions (some samplePriorState)
        { callId := "retell_2", twilioCallSid := "CA200", phoneNumber := "+15550000001"
        , disposition := "CALL_TRANSFERRED", callEndedTimestamp := 700 } 900).status
          = ContactStatus.PAUSED ∧
     (decideCadence defaultHandoffDispositions (some samplePriorState)
        { callId := "retell_2", twilioCallSid := "CA200", phoneNumber := "+15550000001"
        , disposition := "CALL_TRANSFERRED", callEndedTimestamp := 700 } 900).nextCallTimestamp
          = none) :=
  ⟨by decide, handoff_disposition_yields_paused _ _ _ (by decide)⟩

/-- C3 counterexample: the code schedules the retry relative to the
wall clock at decision time, not to the outcome end instant T.  Running
the bootstrap NO_ANSWER decision at clock instant 60000 for an outcome
that ended at instant 0 does not yield nextCallTimestamp T plus twenty
minutes. -/
theorem bootstrap_no_answer_time_counterexample :
    ¬((decideCadence defaultHandoffDispositions none sampleNoAnswerEvent 60000).attemptCount = 1 ∧
      (decideCadence defaultHandoffDispositions none sampleNoAnswerEvent 60000).status
          = ContactStatus.ACTIVE ∧
      (decideCadence defaultHandoffDispositions none sampleNoAnswerEvent 60000).nextCallTimestamp
          = some (sampleNoAnswerEvent.callEndedTimestamp + 20 * 60000)) := by
  decide

/-- C3 (amended): with no prior state, a NO_ANSWER outcome under the
NO_ANSWER policy (first-attempt delay twenty minutes) yields
attemptCount 1, status ACTIVE, and nextCallTimestamp equal to the
decision-time clock instant plus twenty minutes — equal to T plus twenty
minutes exactly when the decision runs at T. -/
theorem bootstrap_no_answer_decision (cid sid ph : String) (tEnd now : Nat) :
    (decideCadence defaultHandoffDispositions none
        { callId := cid, twilioCallSid := sid, phoneNumber := ph
        , disposition := "NO_ANSWER", callEndedTimestamp := tEnd } now).attemptCount = 1 ∧
    (decideCadence defaultHandoffDispositions none
        { callId := cid, twilioCallSid := sid, phoneNumber := ph
        , disposition := "NO_ANSWER", callEndedTimestamp := tEnd } now).status
        = ContactStatus.ACTIVE ∧
    (decideCadence defaultHandoffDispositions none
        { callId := cid, twilioCallSid := sid, phoneNumber := ph
        , disposition := "NO_ANSWER", callEndedTimestamp := tEnd } now).nextCallTimestamp
        = some (now + 20 * 60000) :=
  ⟨rfl, rfl, rfl⟩

/-- C2 counterexample: the decision step is not a function of the pair
of prior state and outcome alone — computing it at two different clock
instants with the same prior state and the same outcome yields different
records. -/
theorem decision_not_clock_free_counterexample :
    decideCadence defaultHandoffDispositions none sampleNoAnswerEvent 0 ≠
      decideCadence defaultHandoffDispositions none sampleNoAnswerEvent 60000 := by
  decide

/-- C2 (amended): the decision step is deterministic in the triple of
prior state, outcome and clock instant; with the same prior state and
outcome but different clock instants the two results agree on every
field except the clock-derived nextCallTimestamp and metadata
lastWebhookTimestamp (nextCallTimestamp still agrees whenever the result
is not ACTIVE). -/
theorem decision_agrees_except_clock (hd : List String)
    (fetched : Option ContactCadenceState) (ev : OutcomeEvent) (t1 t2 : Nat) :
    agreesExceptClockFields (decideCadence hd fetched ev t1)
      (decideCadence hd fetched ev t2) := by
  unfold decideCadence agreesExceptClockFields
  dsimp only
  by_cases h1 : isTerminalSuccess (dispositionRuleKey ev) (ruleFor (dispositionRuleKey ev)) = true
  · simp only [if_pos h1]
    simp
  · simp only [if_neg h1]
    by_cases h2 : (hd.contains (dispositionRuleKey ev)) = true
    · simp only [if_pos h2]
      simp
    · simp only [if_neg h2]
      rcases hm : matchedSegment (ruleFor (dispositionRuleKey ev)) (bumpedAttemptCount fetched)
        with _ | seg
      · simp only [hm]
        simp
      · simp only [hm]
        simp

/-- Witness for C2 (amended) at a concrete pair of clock instants. -/
theorem decision_agrees_except_clock_witness :
    agreesExceptClockFields
      (decideCadence defaultHandoffDispositions none sampleNoAnswerEvent 0)
      (decideCadence defaultHandoffDispositions none sampleNoAnswerEvent 60000) :=
  decision_agrees_except_clock _ _ _ _ _

/-- C8 counterexample: the decision step can throw.  The disposition
toString passes the webhook validation, but its rule lookup resolves
the inherited Object.prototype member instead of falling back to
DEFAULT; it is not in the hand-off set, so the subsequent
currentRule.segments.find dereference throws a TypeError instead of
failing closed into a terminal status. -/
theorem segments_exhausted_throws_counterexample :
    decideCadenceJs defaultHandoffDispositions (some samplePriorState)
      { callId := "retell_3", twilioCallSid := "CA300", phoneNumber := "+15550000001"
      , disposition := "toString", callEndedTimestamp := 800 } 900
      = Except.error "TypeError: currentRule.segments is undefined" := rfl

/-- C8 (amended): when the disposition key does not collide with an
Object.prototype member (so the lookup resolves an own rule or the
DEFAULT fallback), a missing segment for the incremented attempt count
with neither short-circuit applicable makes the decision fail closed:
it returns normally — no throw — with status set to the rule's
exhaustion status and nextCallTimestamp cleared, exactly as on
max-attempts exhaustion.  For colliding keys outside the hand-off set
the step instead throws (see the counterexample). -/
theorem segments_exhausted_fails_closed (hd : List String)
    (fetched : Option ContactCadenceState) (ev : OutcomeEvent) (now : Nat)
    (hproto : dispositionRuleKey ev ∉ objectPrototypeKeys)
    (hsucc : isTerminalSuccess (dispositionRuleKey ev) (ruleFor (dispositionRuleKey ev)) = false)
    (hhand : hd.contains (dispositionRuleKey ev) = false)
    (hseg : matchedSegment (ruleFor (dispositionRuleKey ev)) (bumpedAttemptCount fetched) = none) :
    decideCadenceJs hd fetched ev now = Except.ok (decideCadence hd fetched ev now) ∧
    (decideCadence hd fetched ev now).status
        = (ruleFor (dispositionRuleKey ev)).finalStatusOnExhaustion.toStatus ∧
    (decideCadence hd fetched ev now).nextCallTimestamp = none := by
  have hrule : jsRuleLookup (dispositionRuleKey ev)
      = JsRuleLookup.ownRule (ruleFor (dispositionRuleKey ev)) := by
    unfold jsRuleLookup ruleFor
    rcases hm : getCadenceRulesMap (dispositionRuleKey ev) with _ | r
    · simp only [hm, if_neg hproto, Option.getD_none]
    · simp only [hm, Option.getD_some]
  have hrest : (decideCadence hd fetched ev now).status
      = (ruleFor (dispositionRuleKey ev)).finalStatusOnExhaustion.toStatus ∧
      (decideCadence hd fetched ev now).nextCallTimestamp = none := by
    unfold decideCadence
    dsimp only
    simp only [hsucc, hhand, hseg, Bool.false_eq_true, if_false]
    constructor <;> first | trivial | rfl
  refine ⟨?_, hrest.1, hrest.2⟩
  unfold decideCadenceJs decideCadence
  dsimp only
  simp only [hrule, hsucc, hhand, hseg, Bool.false_eq_true, if_false]

/-- Witness for C8: a fourth NO_ANSWER outcome (whose key collides with
no prototype member) runs off the three-entry NO_ANSWER segment list,
returns normally and lands in COMPLETED_EXHAUSTED. -/
theorem segments_exhausted_fails_closed_witness :
    dispositionRuleKey sampleNoAnswerEvent ∉ objectPrototypeKeys ∧
    isTerminalSuccess (dispositionRuleKey sampleNoAnswerEvent)
        (ruleFor (dispositionRuleKey sampleNoAnswerEvent)) = false ∧
    defaultHandoffDispositions.contains (dispositionRuleKey sampleNoAnswerEvent) = false ∧
    matchedSegment (ruleFor (dispositionRuleKey sampleNoAnswerEvent))
        (bumpedAttemptCount (some samplePriorState)) = none ∧
    (decideCadenceJs defaultHandoffDispositions (some samplePriorState) sampleNoAnswerEvent 0
        = Except.ok (decideCadence defaultHandoffDispositions (some samplePriorState)
            sampleNoAnswerEvent 0) ∧
     (decideCadence defaultHandoffDispositions (some samplePriorState)
        sampleNoAnswerEvent 0).status
          = (ruleFor (dispositionRuleKey sampleNoAnswerEvent)).finalStatusOnExhaustion.toStatus ∧
     (decideCadence defaultHandoffDispositions (some samplePriorState)
        sampleNoAnswerEvent 0).nextCallTimestamp = none) :=
  ⟨by decide, by decide, by decide, by decide,
    segments_exhausted_fails_closed _ _ _ _ (by decide) (by decide) (by decide) (by decide)⟩

/-- Every rule constructed by the configuration leaves the maxAttempts
field absent. -/
theorem ruleFor_maxAttempts_none (key : String) : (ruleFor key).maxAttempts = none := by
  unfold ruleFor getCadenceRulesMap
  split_ifs <;> rfl

/-- C4 (code bug): the cadence engine's exhaustion guard compares the
attempt count against a maxAttempts field that does not exist on the
segment-shaped rules, so under JavaScript comparison semantics the guard
is false for every due contact and the engine never transitions a
contact to the exhaustion status — a call is prepared regardless of the
attempt count. -/
theorem scheduler_exhaustion_check_never_fires (c : StoredContactDoc) :
    schedulerExhausts c = false := by
  unfold schedulerExhausts
  rw [ruleFor_maxAttempts_none]
  unfold jsGeOpt
  cases c.attemptCount <;> rfl

/-- C10: the pre-call token write of the scheduler replaces the whole
stored document: afterwards the store holds exactly the partial object
carrying only the phone number and the fresh call token, with the
previously stored attempt count, status and scheduling fields gone. -/
theorem pre_call_write_replaces_document (store : ContactStore)
    (prev : StoredContactDoc) (ph sid : String) (hprev : store ph = some prev) :
    addOrUpdateContact store (preCallStateUpdate ph sid) ph
        = some (preCallStateUpdate ph sid) ∧
    (preCallStateUpdate ph sid).attemptCount = none ∧
    (preCallStateUpdate ph sid).status = none ∧
    (preCallStateUpdate ph sid).nextCallTimestamp = none ∧
    (preCallStateUpdate ph sid).lastCallDisposition = none ∧
    (preCallStateUpdate ph sid).currentCallSid = some sid := by
  refine ⟨?_, rfl, rfl, rfl, rfl, rfl⟩
  unfold addOrUpdateContact preCallStateUpdate
  simp

/-- Witness for C10: overwriting a stored document that carried three
attempts and an ACTIVE status with the pre-call partial write. -/
theorem pre_call_write_replaces_document_witness :
    sampleStore "+15550000001" = some samplePriorDoc ∧
    (addOrUpdateContact sampleStore (preCallStateUpdate "+15550000001" "TEMP_1") "+15550000001"
        = some (preCallStateUpdate "+15550000001" "TEMP_1") ∧
     (preCallStateUpdate "+15550000001" "TEMP_1").attemptCount = none ∧
     (preCallStateUpdate "+15550000001" "TEMP_1").status = none ∧
     (preCallStateUpdate "+15550000001" "TEMP_1").nextCallTimestamp = none ∧
     (preCallStateUpdate "+15550000001" "TEMP_1").lastCallDisposition = none ∧
     (preCallStateUpdate "+15550000001" "TEMP_1").currentCallSid = some "TEMP_1") :=
  ⟨rfl, pre_call_write_replaces_document sampleStore samplePriorDoc _ _ rfl⟩

/-- The comparator of the due-query sort, as a proposition on the two
sort keys. -/
theorem queryLe_iff (a b : StoredContactDoc) :
    queryLe a b = true ↔
      (priorityKey a < priorityKey b ∨
        (priorityKey a = priorityKey b ∧ timeKey a ≤ timeKey b)) := by
  simp [queryLe]

/-- Transitivity of the due-query comparator. -/
theorem queryLe_trans (a b c : StoredContactDoc)
    (hab : queryLe a b = true) (hbc : queryLe b c = true) : queryLe a c = true := by
  rw [queryLe_iff] at hab hbc ⊢
  omega

/-- Totality of the due-query comparator. -/
theorem queryLe_total (a b : StoredContactDoc) :
    (queryLe a b || queryLe b a) = true := by
  simp only [Bool.or_eq_true, queryLe_iff]
  omega

/-- Every document collected from the active index passed the
ACTIVE-or-PENDING status check. -/
theorem mem_collect_isActiveOrPending (store : ContactStore) :
    ∀ (items : List SyncListItem) (seen : List String) (d : StoredContactDoc),
      d ∈ collectActiveContacts store items seen → isActiveOrPending d = true := by
  intro items
  induction items with
  | nil =>
    intro seen d h
    simp [collectActiveContacts] at h
  | cons item rest ih =>
    intro seen d h
    unfold collectActiveContacts at h
    rcases hph : item.phoneNumber with _ | ph
    · simp only [hph] at h
      exact ih _ _ h
    · simp only [hph] at h
      by_cases hseen : ph ∈ seen
      · simp only [if_pos hseen] at h
        exact ih _ _ h
      · simp only [if_neg hseen] at h
        rcases hst : store ph with _ | doc
        · simp only [hst] at h
          exact ih _ _ h
        · simp only [hst] at h
          by_cases hap : isActiveOrPending doc = true
          · simp only [if_pos hap] at h
            rcases List.mem_cons.mp h with rfl | h2
            · exact hap
            · exact ih _ _ h2
          · simp only [if_neg hap] at h
            exact ih _ _ h

/-- C5: for every query instant and store contents, the due-query never
returns a record whose status is outside ACTIVE and PENDING, nor one
whose nextCallTimestamp is absent or later than the query instant. -/
theorem queryDue_only_due_active_or_pending
    (items : List SyncListItem) (store : ContactStore) (asOf : Nat)
    (d : StoredContactDoc) (hmem : d ∈ queryContactsDueForCall items store asOf) :
    (d.status = some ContactStatus.ACTIVE ∨ d.status = some ContactStatus.PENDING) ∧
    ∃ t, d.nextCallTimestamp = some t ∧ t ≤ asOf := by
  unfold queryContactsDueForCall at hmem
  obtain ⟨hsorted, hfilter⟩ := List.mem_filter.mp hmem
  have hcol : d ∈ collectActiveContacts store items [] := List.mem_mergeSort.mp hsorted
  have hap := mem_collect_isActiveOrPending store items [] d hcol
  constructor
  · simp only [isActiveOrPending, Bool.or_eq_true, beq_iff_eq] at hap
    exact hap
  · rcases hnt : d.nextCallTimestamp with _ | t
    · simp only [dueFilter, hnt] at hfilter
      exact Bool.noConfusion hfilter
    · refine ⟨t, rfl, ?_⟩
      simp only [dueFilter, hnt, decide_eq_true_eq] at hfilter
      exact hfilter

/-- Witness for C5 at a one-item index whose backing document is ACTIVE
and due. -/
theorem queryDue_only_due_active_or_pending_witness :
    samplePriorDoc ∈ queryContactsDueForCall sampleItems sampleStore 600 ∧
    ((samplePriorDoc.status = some ContactStatus.ACTIVE ∨
      samplePriorDoc.status = some ContactStatus.PENDING) ∧
     ∃ t, samplePriorDoc.nextCallTimestamp = some t ∧ t ≤ 600) := by
  have hmem : samplePriorDoc ∈ queryContactsDueForCall sampleItems sampleStore 600 := by
    unfold queryContactsDueForCall
    refine List.mem_filter.mpr ⟨List.mem_mergeSort.mpr ?_, ?_⟩
    · decide
    · decide
  exact ⟨hmem, queryDue_only_due_active_or_pending _ _ _ _ hmem⟩

/-- C6: the list the due-query returns is pairwise ordered by ascending
priority key (absent priority encoded as MAX_SAFE_INTEGER, hence sorting
last) with ties broken by ascending next-call time. -/
theorem queryDue_sorted_by_priority_then_time
    (items : List SyncListItem) (store : ContactStore) (asOf : Nat) :
    (queryContactsDueForCall items store asOf).Pairwise (fun a b =>
      priorityKey a < priorityKey b ∨
        (priorityKey a = priorityKey b ∧ timeKey a ≤ timeKey b)) := by
  unfold queryContactsDueForCall
  have hs := @List.sorted_mergeSort StoredContactDoc queryLe
    (fun a b c hab hbc => queryLe_trans a b c hab hbc)
    (fun a b => queryLe_total a b)
    (collectActiveContacts store items [])
  have hf := List.Pairwise.filter (dueFilter asOf) hs
  exact hf.imp (fun h => (queryLe_iff _ _).mp h)

/-- Reflexivity of the NULLS LAST priority comparison. -/
theorem priorityNullsLastLE_refl (p : Option Int) : priorityNullsLastLE p p = true := by
  cases p <;> simp [priorityNullsLastLE]

/-- Transitivity of the NULLS LAST priority comparison. -/
theorem priorityNullsLastLE_trans : ∀ (p q r : Option Int),
    priorityNullsLastLE p q = true → priorityNullsLastLE q r = true →
    priorityNullsLastLE p r = true
  | none, none, _, _, h2 => h2
  | none, some _, _, h1, _ => Bool.noConfusion h1
  | some _, none, none, _, _ => rfl
  | some _, none, some _, _, h2 => Bool.noConfusion h2
  | some _, some _, none, _, _ => rfl
  | some p, some q, some r, h1, h2 => by
      simp only [priorityNullsLastLE, decide_eq_true_eq] at h1 h2 ⊢
      omega

/-- Totality of the NULLS LAST priority comparison. -/
theorem priorityNullsLastLE_total : ∀ (p q : Option Int),
    priorityNullsLastLE p q = true ∨ priorityNullsLastLE q p = true
  | none, none => Or.inl rfl
  | none, some _ => Or.inr rfl
  | some _, none => Or.inl rfl
  | some p, some q => by
      simp only [priorityNullsLastLE, decide_eq_true_eq]
      omega

/-- Reflexivity of the claim order. -/
theorem claimKeyLE_refl (a : HopperEntry) : claimKeyLE a a = true := by
  simp [claimKeyLE, priorityNullsLastLE_refl]

/-- Transitivity of the claim order. -/
theorem claimKeyLE_trans (a b c : HopperEntry)
    (hab : claimKeyLE a b = true) (hbc : claimKeyLE b c = true) :
    claimKeyLE a c = true := by
  simp only [claimKeyLE, Bool.or_eq_true, Bool.and_eq_true, decide_eq_true_eq] at hab hbc ⊢
  rcases hab with h1 | ⟨h1, h2⟩ <;> rcases hbc with h3 | ⟨h3, h4⟩
  · exact Or.inl (by omega)
  · exact Or.inl (by omega)
  · exact Or.inl (by omega)
  · exact Or.inr ⟨by omega, priorityNullsLastLE_trans _ _ _ h2 h4⟩

/-- Totality of the claim order. -/
theorem claimKeyLE_total (a b : HopperEntry) :
    claimKeyLE a b = true ∨ claimKeyLE b a = true := by
  simp only [claimKeyLE, Bool.or_eq_true, Bool.and_eq_true, decide_eq_true_eq]
  rcases Nat.lt_trichotomy a.hopperEntryTimestamp b.hopperEntryTimestamp with h | h | h
  · exact Or.inl (Or.inl h)
  · rcases priorityNullsLastLE_total a.priority b.priority with hp | hp
    · exact Or.inl (Or.inr ⟨h, hp⟩)
    · exact Or.inr (Or.inr ⟨h.symm, hp⟩)
  · exact Or.inr (Or.inl h)

/-- The better of two entries is one of them. -/
theorem betterEntry_cases (a b : HopperEntry) :
    betterEntry a b = a ∨ betterEntry a b = b := by
  unfold betterEntry
  split
  · exact Or.inl rfl
  · exact Or.inr rfl

/-- The better of two entries is at most the first. -/
theorem betterEntry_le_left (a b : HopperEntry) :
    claimKeyLE (betterEntry a b) a = true := by
  unfold betterEntry
  split
  · exact claimKeyLE_refl a
  · next hn =>
      rcases claimKeyLE_total a b with h | h
      · exact absurd h hn
      · exact h

/-- The better of two entries is at most the second. -/
theorem betterEntry_le_right (a b : HopperEntry) :
    claimKeyLE (betterEntry a b) b = true := by
  unfold betterEntry
  split
  · next ht => exact ht
  · exact claimKeyLE_refl b

/-- The fold of the claim selection yields either its seed or a list
member. -/
theorem foldl_betterEntry_mem : ∀ (es : List HopperEntry) (e : HopperEntry),
    es.foldl betterEntry e = e ∨ es.foldl betterEntry e ∈ es := by
  intro es
  induction es with
  | nil => exact fun _ => Or.inl rfl
  | cons x xs ih =>
    intro e
    rw [List.foldl_cons]
    rcases ih (betterEntry e x) with h | h
    · rcases betterEntry_cases e x with hbe | hbe
      · exact Or.inl (h.trans hbe)
      · exact Or.inr (by rw [h, hbe]; exact List.mem_cons_self x xs)
    · exact Or.inr (List.mem_cons_of_mem x h)

/-- The fold of the claim selection is minimal among the seed and the
list members. -/
theorem foldl_betterEntry_le : ∀ (es : List HopperEntry) (e : HopperEntry),
    claimKeyLE (es.foldl betterEntry e) e = true ∧
      ∀ x ∈ es, claimKeyLE (es.foldl betterEntry e) x = true := by
  intro es
  induction es with
  | nil =>
    intro e
    refine ⟨claimKeyLE_refl e, ?_⟩
    intro x hx
    exact absurd hx (List.not_mem_nil x)
  | cons y ys ih =>
    intro e
    rw [List.foldl_cons]
    obtain ⟨h1, h2⟩ := ih (betterEntry e y)
    refine ⟨claimKeyLE_trans _ _ _ h1 (betterEntry_le_left e y), ?_⟩
    intro x hx
    rcases List.mem_cons.mp hx with rfl | hx2
    · exact claimKeyLE_trans _ _ _ h1 (betterEntry_le_right e x)
    · exact h2 x hx2

/-- The claim subselect returns nothing exactly when no row is
pending. -/
theorem selectNext_eq_none_iff (h : List HopperEntry) :
    selectNext h = none ↔ pendingEntries h = [] := by
  unfold selectNext
  cases hp : pendingEntries h <;> simp

/-- The claim subselect returns a pending row minimal under the claim
order. -/
theorem selectNext_spec (h : List HopperEntry) (e : HopperEntry)
    (hsel : selectNext h = some e) :
    e ∈ pendingEntries h ∧ ∀ x ∈ pendingEntries h, claimKeyLE e x = true := by
  unfold selectNext at hsel
  cases hp : pendingEntries h with
  | nil =>
    rw [hp] at hsel
    exact Option.noConfusion hsel
  | cons p ps =>
    simp only [hp] at hsel
    have he : ps.foldl betterEntry p = e := by injection hsel
    obtain ⟨h1, h2⟩ := foldl_betterEntry_le ps p
    rw [he] at h1 h2
    constructor
    · rcases foldl_betterEntry_mem ps p with hm | hm
    -- hm in the first case states the fold equals the seed
      · rw [he] at hm
        rw [hm]
        exact List.mem_cons_self p ps
      · rw [he] at hm
        exact List.mem_cons_of_mem p hm
    · intro x hx
      rcases List.mem_cons.mp hx with rfl | hx2
      · exact h1
      · exact h2 x hx2

/-- Marking a row claimed does not change the id column of any row. -/
theorem markClaimed_map_id (h : List HopperEntry) (e : HopperEntry) :
    (markClaimed h e).map (fun x => x.id) = h.map (fun x => x.id) := by
  unfold markClaimed
  rw [List.map_map]
  apply List.map_congr_left
  intro x _
  simp only [Function.comp_apply]
  split <;> rfl

/-- After a claim, the pending rows are exactly the previously pending
rows other than those sharing the claimed id. -/
theorem pendingEntries_markClaimed (e : HopperEntry) :
    ∀ h : List HopperEntry,
      pendingEntries (markClaimed h e) =
        (pendingEntries h).filter (fun x => decide (x.id ≠ e.id)) := by
  intro h
  induction h with
  | nil => rfl
  | cons x xs ih =>
    unfold pendingEntries markClaimed at ih ⊢
    simp only [List.map_cons, List.filter_cons]
    have hupd : ∀ (i l t : Nat) (pr : Option Int),
        isPendingEntry { id := i, leadId := l, hopperEntryTimestamp := t
                       , priority := pr, status := "PROCESSING_INITIAL_CALL" } = false :=
      fun _ _ _ _ => rfl
    by_cases hid : x.id = e.id
    · by_cases hp : isPendingEntry x = true
      · simp [hid, hp, hupd, ih, List.filter_cons]
      · simp [hid, hp, hupd, ih, List.filter_cons]
    · by_cases hp : isPendingEntry x = true
      · simp [hid, hp, ih, List.filter_cons]
      · simp [hid, hp, ih, List.filter_cons]

/-- Removing the unique row with a given id from a list of rows with
pairwise distinct ids shortens it by exactly one. -/
theorem length_filter_ne_of_nodup : ∀ (l : List HopperEntry) (e : HopperEntry),
    (l.map (fun x => x.id)).Nodup → e ∈ l →
    (l.filter (fun x => decide (x.id ≠ e.id))).length = l.length - 1 := by
  intro l e
  induction l with
  | nil =>
    intro _ hm
    exact absurd hm (List.not_mem_nil e)
  | cons x xs ih =>
    intro hnd hm
    simp only [List.map_cons, List.nodup_cons] at hnd
    obtain ⟨hx, hnd2⟩ := hnd
    rw [List.filter_cons]
    rcases List.mem_cons.mp hm with rfl | hm2
    · have hkeep : xs.filter (fun y => decide (y.id ≠ e.id)) = xs := by
        rw [List.filter_eq_self]
        intro y hy
        rw [decide_eq_true_eq]
        intro hEq
        exact hx (by rw [← hEq]; exact List.mem_map_of_mem (fun z => z.id) hy)
      simp [hkeep]
      intro a ha hEq
      exact hx (hEq ▸ List.mem_map_of_mem (fun z => z.id) ha)
    · have hxe : x.id ≠ e.id := by
        intro hEq
        exact hx (by rw [hEq]; exact List.mem_map_of_mem (fun z => z.id) hm2)
      have hlen := ih hnd2 hm2
      have hpos : 1 ≤ xs.length := List.length_pos.mpr (List.ne_nil_of_mem hm2)
      rw [if_pos (decide_eq_true hxe), List.length_cons, hlen, List.length_cons]
      omega

/-- C1: with pairwise distinct row ids, N serialized executions of the
atomic fetch-and-lock step against a table with M pending rows claim
exactly min N M rows, all distinct, all initially pending (no row is
claimed twice and none is lost), in ascending claim-key order (enqueue
timestamp, then priority with nulls last), each claimed row preceding
every row left pending; exactly M minus N rows remain pending. -/
theorem work_queue_claims_spec (n : Nat) (h : List HopperEntry)
    (hnd : (h.map (fun x => x.id)).Nodup) :
    (runClaims n h).1.length = min n (pendingEntries h).length ∧
    ((runClaims n h).1.map (fun x => x.id)).Nodup ∧
    (∀ c ∈ (runClaims n h).1, c ∈ pendingEntries h) ∧
    (runClaims n h).1.Pairwise (fun a b => claimKeyLE a b = true) ∧
    (∀ p ∈ pendingEntries (runClaims n h).2, p ∈ pendingEntries h) ∧
    (∀ c ∈ (runClaims n h).1, ∀ p ∈ pendingEntries (runClaims n h).2,
        claimKeyLE c p = true) ∧
    (pendingEntries (runClaims n h).2).length = (pendingEntries h).length - n := by
  induction n generalizing h with
  | zero =>
    refine ⟨by simp [runClaims], by simp [runClaims], ?_, by simp [runClaims], ?_, ?_,
      by simp [runClaims]⟩
    · intro c hc
      simp [runClaims] at hc
    · intro p hp
      simpa [runClaims] using hp
    · intro c hc
      simp [runClaims] at hc
  | succ n ih =>
    rcases hsel : selectNext h with _ | e
    · have hpend : pendingEntries h = [] := (selectNext_eq_none_iff h).mp hsel
      have hrun : runClaims (n + 1) h = ([], h) := by
        unfold runClaims claimNext
        rw [hsel]
      rw [hrun]
      refine ⟨by simp [hpend], List.nodup_nil, ?_, List.Pairwise.nil, ?_, ?_, by simp [hpend]⟩
      · intro c hc
        exact absurd hc (List.not_mem_nil c)
      · intro p hp
        exact hp
      · intro c hc
        exact absurd hc (List.not_mem_nil c)
    · obtain ⟨hmem, hmin⟩ := selectNext_spec h e hsel
      have hrun : runClaims (n + 1) h =
          (e :: (runClaims n (markClaimed h e)).1, (runClaims n (markClaimed h e)).2) := by
        conv_lhs => unfold runClaims
        unfold claimNext
        rw [hsel]
      have hnd2 : ((markClaimed h e).map (fun x => x.id)).Nodup := by
        rw [markClaimed_map_id]
        exact hnd
      have hpend2 := pendingEntries_markClaimed e h
      obtain ⟨ih1, ih2, ih3, ih4, ih5, ih6, ih7⟩ := ih (markClaimed h e) hnd2
      have hsub : ∀ p ∈ pendingEntries (markClaimed h e), p ∈ pendingEntries h := by
        intro p hp
        rw [hpend2] at hp
        exact (List.mem_filter.mp hp).1
      have hne : ∀ p ∈ pendingEntries (markClaimed h e), p.id ≠ e.id := by
        intro p hp
        rw [hpend2] at hp
        have h2 := (List.mem_filter.mp hp).2
        rwa [decide_eq_true_eq] at h2
      have hndp : ((pendingEntries h).map (fun x => x.id)).Nodup :=
        List.Nodup.sublist ((List.filter_sublist h).map (fun x => x.id)) hnd
      have hlen2 : (pendingEntries (markClaimed h e)).length
          = (pendingEntries h).length - 1 := by
        rw [hpend2]
        exact length_filter_ne_of_nodup (pendingEntries h) e hndp hmem
      have hM : 1 ≤ (pendingEntries h).length :=
        List.length_pos.mpr (List.ne_nil_of_mem hmem)
      rw [hrun]
      dsimp only
      refine ⟨?_, ?_, ?_, ?_, ?_, ?_, ?_⟩
      · rw [List.length_cons, ih1, hlen2]
        omega
      · rw [List.map_cons]
        refine List.nodup_cons.mpr ⟨?_, ih2⟩
        intro hcontra
        obtain ⟨c, hc, hcid⟩ := List.mem_map.mp hcontra
        exact hne c (ih3 c hc) hcid
      · intro c hc
        rcases List.mem_cons.mp hc with rfl | hc2
        · exact hmem
        · exact hsub c (ih3 c hc2)
      · refine List.pairwise_cons.mpr ⟨?_, ih4⟩
        intro c hc
        exact hmin c (hsub c (ih3 c hc))
      · intro p hp
        exact hsub p (ih5 p hp)
      · intro c hc p hp
        rcases List.mem_cons.mp hc with rfl | hc2
        · exact hmin p (hsub p (ih5 p hp))
        · exact ih6 c hc2 p hp
      · rw [ih7, hlen2]
        omega

/-- Witness for C1: two claim invocations against the concrete
three-row hopper (two pending rows) claim both pending rows. -/
theorem work_queue_claims_spec_witness :
    ((sampleHopper.map (fun x => x.id)).Nodup) ∧
    ((runClaims 2 sampleHopper).1.length = min 2 (pendingEntries sampleHopper).length ∧
     ((runClaims 2 sampleHopper).1.map (fun x => x.id)).Nodup ∧
     (∀ c ∈ (runClaims 2 sampleHopper).1, c ∈ pendingEntries sampleHopper) ∧
     (runClaims 2 sampleHopper).1.Pairwise (fun a b => claimKeyLE a b = true) ∧
     (∀ p ∈ pendingEntries (runClaims 2 sampleHopper).2, p ∈ pendingEntries sampleHopper) ∧
     (∀ c ∈ (runClaims 2 sampleHopper).1,
        ∀ p ∈ pendingEntries (runClaims 2 sampleHopper).2, claimKeyLE c p = true) ∧
     (pendingEntries (runClaims 2 sampleHopper).2).length
         = (pendingEntries sampleHopper).length - 2) :=
  ⟨by decide, work_queue_claims_spec 2 sampleHopper (by decide)⟩

end TwilioRetell
